import Mathlib

/-!
Shallow embedding of the attendance web application (`src/app.py`): the
attendance session store, the clock-engine actions `attendance_start` and
`attendance_end`, the three ranking queries of the `index` view, and the
day-timetable projection of `timetable_view`.

Local timestamps are modelled as natural numbers of seconds since the local
(Asia/Tokyo) midnight of proleptic-Gregorian 0001-01-01, which is a Monday;
this matches the ordinal arithmetic of Python's `datetime.date`
(`Date.toOrdinal d = d.toordinal() - 1`).  Calendar dates are triples
mirroring `datetime.date`, with Python's Gregorian leap-year rule.
-/

namespace Attendance

/-! ### Calendar arithmetic (Python `datetime.date`) -/

def isLeap (y : Nat) : Bool := (y % 4 == 0 && y % 100 != 0) || y % 400 == 0

def daysInMonth (y m : Nat) : Nat :=
  if m == 2 then (if isLeap y then 29 else 28)
  else if m == 4 || m == 6 || m == 9 || m == 11 then 30
  else 31

structure Date where
  year : Nat
  month : Nat
  day : Nat
deriving DecidableEq, Repr

def Date.valid (d : Date) : Prop :=
  1 ≤ d.year ∧ d.year ≤ 9999 ∧ 1 ≤ d.month ∧ d.month ≤ 12 ∧
    1 ≤ d.day ∧ d.day ≤ daysInMonth d.year d.month

instance (d : Date) : Decidable d.valid :=
  inferInstanceAs (Decidable (1 ≤ d.year ∧ d.year ≤ 9999 ∧ 1 ≤ d.month ∧ d.month ≤ 12 ∧
    1 ≤ d.day ∧ d.day ≤ daysInMonth d.year d.month))

def daysBeforeMonth (y : Nat) : Nat → Nat
  | 0 => 0
  | 1 => 0
  | m + 1 => daysBeforeMonth y m + daysInMonth y m

def daysBeforeYear (y : Nat) : Nat :=
  (y - 1) * 365 + (y - 1) / 4 - (y - 1) / 100 + (y - 1) / 400

/-- Days since 0001-01-01 (Python `date.toordinal() - 1`); day 0 is a Monday. -/
def Date.toOrdinal (d : Date) : Nat :=
  daysBeforeYear d.year + daysBeforeMonth d.year d.month + (d.day - 1)

/-- Python `date.weekday()` of an ordinal day number: 0 = Monday. -/
def ordWeekday (n : Nat) : Nat := n % 7

/-- Python `date.weekday()`: 0 = Monday, …, 6 = Sunday. -/
def Date.weekday (d : Date) : Nat := ordWeekday d.toOrdinal

/-- Local calendar day (ordinal) containing a local timestamp, i.e. the
`::date` cast of a stored instant rendered in the application time zone. -/
def dateOrd (t : Nat) : Nat := t / 86400

/-! ### Data model: `users` and `attendance` tables -/

structure User where
  id : Nat
  display_name : String
deriving DecidableEq, Repr

structure Session where
  id : Nat
  user_id : Nat
  start_at : Nat
  end_at : Option Nat
deriving DecidableEq, Repr

structure DB where
  users : List User
  attendance : List Session
deriving DecidableEq, Repr

/-! ### Clock engine: `attendance_start`, `attendance_end` -/

/-- `attendance_start` (`src/app.py` 298–308): an unconditional
`INSERT INTO public.attendance (user_id, start_at) VALUES (%s, NOW())`;
`newId` is the id drawn from the table's id sequence, `now` the `NOW()`
instant. -/
def attendance_start (db : DB) (uid now newId : Nat) : DB :=
  { db with attendance := db.attendance ++ [⟨newId, uid, now, none⟩] }

/-- Predicate of the target CTE's WHERE clause:
`user_id = %s AND end_at IS NULL`. -/
def Session.isOpenFor (uid : Nat) (s : Session) : Bool :=
  s.user_id == uid && s.end_at.isNone

/-- The user's open sessions (rows with `end_at IS NULL`). -/
def openSessions (db : DB) (uid : Nat) : List Session :=
  db.attendance.filter (Session.isOpenFor uid)

/-- `ORDER BY start_at DESC LIMIT 1` over a candidate list: an element with
maximal `start_at` (the first such element, ties being unspecified in SQL). -/
def pickLatest : List Session → Option Session
  | [] => none
  | s :: l =>
    match pickLatest l with
    | none => some s
    | some t => if t.start_at > s.start_at then some t else some s

/-- `attendance_end` (`src/app.py` 310–329): the target CTE selects the
caller's open session with the latest `start_at` (`LIMIT 1`), and the UPDATE
sets `end_at = NOW()` on the rows whose id equals the target's; when the CTE
is empty the UPDATE touches nothing. -/
def attendance_end (db : DB) (uid now : Nat) : DB :=
  match pickLatest (openSessions db uid) with
  | none => db
  | some t =>
    { db with attendance :=
        db.attendance.map (fun s => if s.id == t.id then { s with end_at := some now } else s) }

theorem pickLatest_cons_none {s : Session} {l : List Session} (h2 : pickLatest l = none) :
    pickLatest (s :: l) = some s := by
  simp only [pickLatest, h2]

theorem pickLatest_cons_some {s u : Session} {l : List Session} (h2 : pickLatest l = some u) :
    pickLatest (s :: l) = if u.start_at > s.start_at then some u else some s := by
  simp only [pickLatest, h2]

theorem pickLatest_eq_none_iff (l : List Session) : pickLatest l = none ↔ l = [] := by
  cases l with
  | nil => simp [pickLatest]
  | cons s l =>
    cases h2 : pickLatest l with
    | none => simp [pickLatest_cons_none h2]
    | some t => rw [pickLatest_cons_some h2]; split <;> simp

theorem pickLatest_mem {l : List Session} :
    ∀ {t : Session}, pickLatest l = some t → t ∈ l := by
  induction l with
  | nil => intro t h; simp [pickLatest] at h
  | cons s l ih =>
    intro t h
    cases h2 : pickLatest l with
    | none =>
      rw [pickLatest_cons_none h2] at h
      have hst : s = t := Option.some.inj h
      exact hst ▸ List.mem_cons_self s l
    | some u =>
      rw [pickLatest_cons_some h2] at h
      split at h
      · have hut : u = t := Option.some.inj h
        subst hut
        exact List.mem_cons_of_mem s (ih h2)
      · have hst : s = t := Option.some.inj h
        exact hst ▸ List.mem_cons_self s l

theorem pickLatest_max {l : List Session} :
    ∀ {t : Session}, pickLatest l = some t → ∀ s ∈ l, s.start_at ≤ t.start_at := by
  induction l with
  | nil => intro t h; simp [pickLatest] at h
  | cons s l ih =>
    intro t h
    cases h2 : pickLatest l with
    | none =>
      rw [pickLatest_cons_none h2] at h
      have hst : s = t := Option.some.inj h
      have hl : l = [] := (pickLatest_eq_none_iff l).mp h2
      subst hl
      subst hst
      simp
    | some u =>
      rw [pickLatest_cons_some h2] at h
      split at h
      · rename_i hgt
        have hut : u = t := Option.some.inj h
        subst hut
        intro x hx
        rcases List.mem_cons.mp hx with hx | hx
        · subst hx; omega
        · exact ih h2 x hx
      · rename_i hle
        have hst : s = t := Option.some.inj h
        subst hst
        intro x hx
        rcases List.mem_cons.mp hx with hx | hx
        · subst hx; exact Nat.le_refl _
        · have h3 := ih h2 x hx
          omega

theorem map_update_of_not_mem_id {f : Session → Session} {tid : Nat}
    (hf : ∀ s : Session, s.id ≠ tid → f s = s) :
    ∀ l : List Session, (∀ s ∈ l, s.id ≠ tid) → l.map f = l := by
  intro l hl
  calc l.map f = l.map (fun s => s) := List.map_congr_left (fun s hs => hf s (hl s hs))
    _ = l := List.map_id' l

/-- C1 (code bug): `attendance_start` is an unconditional INSERT, so two
successive start actions with no intervening end leave the user with two
concurrently-open rows — the at-most-one-open-session invariant fails on the
code as written. -/
theorem attendance_start_twice_two_open :
    (openSessions (attendance_start (attendance_start ⟨[⟨1, "A"⟩], []⟩ 1 100 1) 1 200 2) 1).length
      = 2 := by
  decide

/-- C2: `attendance_end` on a user with no open session leaves the store
unchanged (fabricating nothing); and whenever the user does have an open
session it must rewrite exactly one row in place — an open row of that user
whose `start_at` is maximal among the user's open rows — setting that row's
`end_at` (previously null) to `now`.  The `wf` hypothesis is the primary key
of the `attendance` table. -/
theorem attendance_end_closes_most_recent_open (db : DB) (uid now : Nat)
    (wf : (db.attendance.map Session.id).Nodup) :
    (openSessions db uid = [] → attendance_end db uid now = db) ∧
    (openSessions db uid ≠ [] →
      ∃ pre t post,
        db.attendance = pre ++ t :: post ∧
        t.user_id = uid ∧ t.end_at = none ∧
        (∀ s ∈ db.attendance, s.user_id = uid → s.end_at = none → s.start_at ≤ t.start_at) ∧
        (attendance_end db uid now).users = db.users ∧
        (attendance_end db uid now).attendance =
          pre ++ { t with end_at := some now } :: post) := by
  cases hp : pickLatest (openSessions db uid) with
  | none =>
    have he : attendance_end db uid now = db := by
      simp [attendance_end, hp]
    exact ⟨fun _ => he, fun hne => absurd ((pickLatest_eq_none_iff _).mp hp) hne⟩
  | some t =>
    constructor
    · intro h0
      rw [h0] at hp
      simp [pickLatest] at hp
    · intro hne
      have htm : t ∈ openSessions db uid := pickLatest_mem hp
      have htmem : t ∈ db.attendance := (List.mem_filter.mp htm).1
      have hopen : Session.isOpenFor uid t = true := (List.mem_filter.mp htm).2
      have huid : t.user_id = uid := by
        simp [Session.isOpenFor] at hopen
        exact hopen.1
      have hend : t.end_at = none := by
        simp [Session.isOpenFor, Option.isNone_iff_eq_none] at hopen
        exact hopen.2
      obtain ⟨pre, post, hsplit⟩ := List.append_of_mem htmem
      have hmax : ∀ s ∈ db.attendance, s.user_id = uid → s.end_at = none →
          s.start_at ≤ t.start_at := by
        intro s hs hsu hse
        have hsm : s ∈ openSessions db uid := by
          refine List.mem_filter.mpr ⟨hs, ?_⟩
          simp [Session.isOpenFor, hsu, hse]
        exact pickLatest_max hp s hsm
      refine ⟨pre, t, post, hsplit, huid, hend, hmax, ?_, ?_⟩
      · simp [attendance_end, hp]
      · have hwf := wf
        rw [hsplit] at hwf
        simp only [List.map_append, List.map_cons, List.nodup_append, List.nodup_cons] at hwf
        have hpre : ∀ s ∈ pre, s.id ≠ t.id := by
          intro s hs hcontra
          have h1 : s.id ∈ pre.map Session.id := List.mem_map_of_mem Session.id hs
          have h2 := hwf.2.2 h1
          simp [hcontra] at h2
        have hpost : ∀ s ∈ post, s.id ≠ t.id := by
          intro s hs hcontra
          have h1 : s.id ∈ post.map Session.id := List.mem_map_of_mem Session.id hs
          exact hwf.2.1.1 (hcontra ▸ h1)
        have hstep : (attendance_end db uid now).attendance =
            db.attendance.map
              (fun s => if s.id == t.id then { s with end_at := some now } else s) := by
          simp [attendance_end, hp]
        rw [hstep, hsplit, List.map_append, List.map_cons]
        have hfix : ∀ s : Session, s.id ≠ t.id →
            (if s.id == t.id then { s with end_at := some now } else s) = s := by
          intro s hs
          simp [hs]
        rw [map_update_of_not_mem_id hfix pre hpre, map_update_of_not_mem_id hfix post hpost]
        simp

/-- Witness for C2 at a concrete store: user 1 has one open session, so
`attendance_end` is forced to close exactly that row. -/
theorem attendance_end_closes_most_recent_open_witness :
    ∃ pre t post,
      (⟨[⟨1, "A"⟩], [⟨5, 1, 100, none⟩]⟩ : DB).attendance = pre ++ t :: post ∧
      t.user_id = 1 ∧ t.end_at = none ∧
      (∀ s ∈ (⟨[⟨1, "A"⟩], [⟨5, 1, 100, none⟩]⟩ : DB).attendance,
        s.user_id = 1 → s.end_at = none → s.start_at ≤ t.start_at) ∧
      (attendance_end ⟨[⟨1, "A"⟩], [⟨5, 1, 100, none⟩]⟩ 1 200).users =
        (⟨[⟨1, "A"⟩], [⟨5, 1, 100, none⟩]⟩ : DB).users ∧
      (attendance_end ⟨[⟨1, "A"⟩], [⟨5, 1, 100, none⟩]⟩ 1 200).attendance =
        pre ++ { t with end_at := some 200 } :: post :=
  (attendance_end_closes_most_recent_open ⟨[⟨1, "A"⟩], [⟨5, 1, 100, none⟩]⟩ 1 200
    (by decide)).2 (by decide)

/-! ### Aggregation / ranking engine (`index`, `src/app.py` 168–231) -/

/-- Seconds of `EXTRACT(EPOCH FROM (COALESCE(a.end_at, NOW()) - a.start_at))`:
an open session is measured against the current instant `now`. -/
def elapsedSeconds (now : Nat) (s : Session) : Int :=
  (s.end_at.getD now : Int) - (s.start_at : Int)

def sumElapsed (now : Nat) (l : List Session) : Int :=
  (l.map (elapsedSeconds now)).sum

/-- Postgres `ROUND(numeric)`: round half away from zero. -/
def roundHalfAway (q : ℚ) : ℤ := if 0 ≤ q then ⌊q + 1 / 2⌋ else -⌊-q + 1 / 2⌋

/-- Postgres `ROUND(x, 2)`. -/
def round2 (q : ℚ) : ℚ := (roundHalfAway (q * 100) : ℚ) / 100

/-- The `hours` column: `ROUND(SUM(EXTRACT(EPOCH FROM …)) / 3600.0, 2)`. -/
def hoursOf (now : Nat) (l : List Session) : ℚ := round2 ((sumElapsed now l : ℚ) / 3600)

structure RankEntry where
  user_id : Nat
  display_name : String
  hours : ℚ
deriving DecidableEq, Repr

/-- The sessions of user `uid` selected by a ranking query's JOIN + WHERE:
the user's rows whose `start_at` lies in the window. -/
def sessionsInWindow (db : DB) (uid : Nat) (inWin : Nat → Bool) : List Session :=
  db.attendance.filter (fun s => s.user_id == uid && inWin s.start_at)

/-- `ORDER BY hours DESC, u.id ASC` as a relation on result rows. -/
def rankRel (a b : RankEntry) : Prop :=
  b.hours < a.hours ∨ (a.hours = b.hours ∧ a.user_id ≤ b.user_id)

instance : DecidableRel rankRel := fun a b =>
  inferInstanceAs (Decidable (b.hours < a.hours ∨ (a.hours = b.hours ∧ a.user_id ≤ b.user_id)))

instance : IsTotal RankEntry rankRel := by
  constructor
  intro a b
  rcases lt_trichotomy a.hours b.hours with h | h | h
  · right; left; exact h
  · rcases Nat.le_total a.user_id b.user_id with h2 | h2
    · left; right; exact ⟨h, h2⟩
    · right; right; exact ⟨h.symm, h2⟩
  · left; left; exact h

instance : IsTrans RankEntry rankRel := by
  constructor
  intro a b c hab hbc
  rcases hab with hab | ⟨hab1, hab2⟩
  · rcases hbc with hbc | ⟨hbc1, hbc2⟩
    · left; exact lt_trans hbc hab
    · left; exact hbc1 ▸ hab
  · rcases hbc with hbc | ⟨hbc1, hbc2⟩
    · left; exact lt_of_lt_of_le hbc (le_of_eq hab1.symm)
    · right; exact ⟨hab1.trans hbc1, le_trans hab2 hbc2⟩

/-- One ranking query of `index` (`src/app.py` 179–190, 193–204, 208–219):
inner join of `users` and `attendance` restricted to the window, grouped by
user, hours per §`hoursOf`, ordered by `hours DESC, u.id ASC`. -/
def rank (db : DB) (inWin : Nat → Bool) (now : Nat) : List RankEntry :=
  List.insertionSort rankRel
    (db.users.filterMap (fun u =>
      let ss := sessionsInWindow db u.id inWin
      if ss.isEmpty then none else some ⟨u.id, u.display_name, hoursOf now ss⟩))

/-- Day window: `WHERE a.start_at::date = today`. -/
def inDayWindow (today : Date) (t : Nat) : Bool := dateOrd t == today.toOrdinal

/-- `week_start = today - timedelta(days=today.weekday())` (line 173), as an
ordinal day number. -/
def week_start (today : Date) : Nat := today.toOrdinal - today.weekday

/-- `month_start = today.replace(day=1)` (line 174). -/
def month_start (today : Date) : Date := { today with day := 1 }

/-- Week window: `a.start_at >= week_start::date AND
a.start_at < (today::date + INTERVAL '1 day')`. -/
def inWeekWindow (today : Date) (t : Nat) : Bool :=
  decide (week_start today * 86400 ≤ t ∧ t < (today.toOrdinal + 1) * 86400)

/-- Month window: `a.start_at >= month_start::date AND
a.start_at < (today::date + INTERVAL '1 day')`. -/
def inMonthWindow (today : Date) (t : Nat) : Bool :=
  decide ((month_start today).toOrdinal * 86400 ≤ t ∧ t < (today.toOrdinal + 1) * 86400)

/-- C3: the day window holds exactly the sessions starting on `today`; the
week window runs from the Monday on or before `today` (weekday 0, at most six
days back) through `today` inclusive; the month window runs from day 1 of
`today`'s month through `today` inclusive; and an open session's elapsed
seconds are measured against the current instant `now`, not a window
boundary. -/
theorem ranking_windows_select_by_local_start_day (today : Date) (t : Nat) :
    (inDayWindow today t = true ↔ dateOrd t = today.toOrdinal) ∧
    (ordWeekday (week_start today) = 0 ∧ week_start today ≤ today.toOrdinal ∧
      today.toOrdinal < week_start today + 7) ∧
    (inWeekWindow today t = true ↔
      week_start today ≤ dateOrd t ∧ dateOrd t ≤ today.toOrdinal) ∧
    ((month_start today).year = today.year ∧ (month_start today).month = today.month ∧
      (month_start today).day = 1) ∧
    (inMonthWindow today t = true ↔
      (month_start today).toOrdinal ≤ dateOrd t ∧ dateOrd t ≤ today.toOrdinal) ∧
    (∀ (s : Session) (now : Nat), s.end_at = none →
      elapsedSeconds now s = (now : ℤ) - (s.start_at : ℤ)) := by
  refine ⟨?_, ?_, ?_, ⟨rfl, rfl, rfl⟩, ?_, ?_⟩
  · simp [inDayWindow]
  · unfold week_start Date.weekday ordWeekday
    omega
  · unfold inWeekWindow week_start Date.weekday ordWeekday dateOrd
    rw [decide_eq_true_iff]
    omega
  · unfold inMonthWindow dateOrd
    rw [decide_eq_true_iff]
    omega
  · intro s now h
    simp [elapsedSeconds, h]

/-- Witness for C3: an open session started at second 40 contributes
`now - start` elapsed seconds at `now = 100`. -/
theorem ranking_windows_select_by_local_start_day_witness :
    elapsedSeconds 100 ⟨1, 1, 40, none⟩ = 60 := by
  simpa using
    (ranking_windows_select_by_local_start_day ⟨2026, 10, 12⟩ 0).2.2.2.2.2 ⟨1, 1, 40, none⟩ 100 rfl

/-- C4: a ranking result is pairwise ordered by descending hours with ties
broken by ascending user id; every entry belongs to a user with at least one
session in the window (inner-join semantics, no zero-session rows); and a
window containing no session yields the empty ranking. -/
theorem rank_sorted_and_inner_join (db : DB) (inWin : Nat → Bool) (now : Nat) :
    List.Pairwise
      (fun a b : RankEntry => b.hours ≤ a.hours ∧ (a.hours = b.hours → a.user_id ≤ b.user_id))
      (rank db inWin now) ∧
    (∀ e ∈ rank db inWin now, ∃ u ∈ db.users, e.user_id = u.id ∧
      e.display_name = u.display_name ∧ sessionsInWindow db u.id inWin ≠ []) ∧
    ((∀ s ∈ db.attendance, inWin s.start_at = false) → rank db inWin now = []) := by
  refine ⟨?_, ?_, ?_⟩
  · have hs := List.sorted_insertionSort rankRel
      (db.users.filterMap (fun u =>
        let ss := sessionsInWindow db u.id inWin
        if ss.isEmpty then none else some ⟨u.id, u.display_name, hoursOf now ss⟩))
    refine List.Pairwise.imp ?_ hs
    intro a b hab
    rcases hab with hab | ⟨hab1, hab2⟩
    · exact ⟨le_of_lt hab, fun he => absurd (he ▸ hab) (lt_irrefl _)⟩
    · exact ⟨le_of_eq hab1.symm, fun _ => hab2⟩
  · intro e he
    rw [rank, List.mem_insertionSort] at he
    obtain ⟨u, hu, heq⟩ := List.mem_filterMap.mp he
    by_cases hne : (sessionsInWindow db u.id inWin).isEmpty
    · simp [hne] at heq
    · simp only [hne, Bool.false_eq_true, not_false_iff, if_false] at heq
      have he2 : (⟨u.id, u.display_name, hoursOf now (sessionsInWindow db u.id inWin)⟩ :
          RankEntry) = e := Option.some.inj heq
      subst he2
      exact ⟨u, hu, rfl, rfl, fun hnil => by simp [hnil] at hne⟩
  · intro hall
    have hnil : db.users.filterMap (fun u =>
        let ss := sessionsInWindow db u.id inWin
        if ss.isEmpty then none
        else some (⟨u.id, u.display_name, hoursOf now ss⟩ : RankEntry)) = [] := by
      rw [List.filterMap_eq_nil_iff]
      intro u hu
      have hempty : sessionsInWindow db u.id inWin = [] := by
        rw [sessionsInWindow, List.filter_eq_nil_iff]
        intro s hs
        simp [hall s hs]
      simp [hempty]
    rw [rank, hnil]
    rfl

/-- Witness for C4: with a nonempty store whose sessions all fall outside the
window, the ranking is empty. -/
theorem rank_sorted_and_inner_join_witness :
    rank ⟨[⟨1, "A"⟩], [⟨1, 1, 5, none⟩]⟩ (fun _ => false) 0 = [] :=
  (rank_sorted_and_inner_join ⟨[⟨1, "A"⟩], [⟨1, 1, 5, none⟩]⟩ (fun _ => false) 0).2.2
    (by intro s hs; rfl)

/-- C9: every reported `hours` value is the exact elapsed-seconds sum of the
user's sessions in the window, divided by 3600 and rounded half away from
zero at two decimals — hence a multiple of 0.01. -/
theorem rank_hours_quantized (db : DB) (inWin : Nat → Bool) (now : Nat) :
    ∀ e ∈ rank db inWin now,
      (∃ u ∈ db.users, e.user_id = u.id ∧
        e.hours = round2 ((sumElapsed now (sessionsInWindow db u.id inWin) : ℚ) / 3600)) ∧
      ∃ k : ℤ, e.hours = (k : ℚ) / 100 := by
  intro e he
  rw [rank, List.mem_insertionSort] at he
  obtain ⟨u, hu, heq⟩ := List.mem_filterMap.mp he
  by_cases hne : (sessionsInWindow db u.id inWin).isEmpty
  · simp [hne] at heq
  · simp only [hne, Bool.false_eq_true, not_false_iff, if_false] at heq
    have he2 : (⟨u.id, u.display_name, hoursOf now (sessionsInWindow db u.id inWin)⟩ :
        RankEntry) = e := Option.some.inj heq
    subst he2
    constructor
    · exact ⟨u, hu, rfl, rfl⟩
    · exact ⟨roundHalfAway ((sumElapsed now (sessionsInWindow db u.id inWin) : ℚ) / 3600 * 100),
        rfl⟩

/-- Witness for C9: one user with one 5400-second session; the single rank
entry's hours value is the rounded elapsed sum and a multiple of 0.01 (here
1.5 hours). -/
theorem rank_hours_quantized_witness :
    (∃ u ∈ ({ users := [⟨1, "A"⟩], attendance := [⟨1, 1, 0, some 5400⟩] } : DB).users,
      (⟨1, "A", hoursOf 5400 (sessionsInWindow ⟨[⟨1, "A"⟩], [⟨1, 1, 0, some 5400⟩]⟩ 1
        (fun _ => true))⟩ : RankEntry).user_id = u.id ∧
      (⟨1, "A", hoursOf 5400 (sessionsInWindow ⟨[⟨1, "A"⟩], [⟨1, 1, 0, some 5400⟩]⟩ 1
        (fun _ => true))⟩ : RankEntry).hours = round2 ((sumElapsed 5400
        (sessionsInWindow ⟨[⟨1, "A"⟩], [⟨1, 1, 0, some 5400⟩]⟩ u.id (fun _ => true)) : ℚ) / 3600)) ∧
    ∃ k : ℤ, (⟨1, "A", hoursOf 5400 (sessionsInWindow ⟨[⟨1, "A"⟩], [⟨1, 1, 0, some 5400⟩]⟩ 1
      (fun _ => true))⟩ : RankEntry).hours = (k : ℚ) / 100 :=
  rank_hours_quantized ⟨[⟨1, "A"⟩], [⟨1, 1, 0, some 5400⟩]⟩ (fun _ => true) 5400
    ⟨1, "A", hoursOf 5400 (sessionsInWindow ⟨[⟨1, "A"⟩], [⟨1, 1, 0, some 5400⟩]⟩ 1
      (fun _ => true))⟩ (List.Mem.head _)

/-! ### Day-timetable projector (`timetable_view`, `src/app.py` 233–293) -/

def digitChar : Nat → Char
  | 0 => '0'
  | 1 => '1'
  | 2 => '2'
  | 3 => '3'
  | 4 => '4'
  | 5 => '5'
  | 6 => '6'
  | 7 => '7'
  | 8 => '8'
  | _ => '9'

/-- Python `f\x7bn:02d\x7d` for `n < 100`: two decimal digits. -/
def pad2 (n : Nat) : String := String.mk [digitChar (n / 10 % 10), digitChar (n % 10)]

/-- Tick label `f"{m//60:02d}:{m%60:02d}"` for a minute-of-day `m`. -/
def tickLabel (m : Nat) : String := pad2 (m / 60) ++ ":" ++ pad2 (m % 60)

structure Tick where
  label : String
  pos_pct : ℚ
deriving DecidableEq, Repr

/-- Python `range(0, 24 * 60 + 1, 30)`: minutes 0, 30, …, 1440. -/
def tickMinutes : List Nat := List.range' 0 49 30

/-- The tick list of `timetable_view` (lines 242–247). -/
def ticks : List Tick :=
  tickMinutes.map (fun m => ⟨tickLabel m, (m : ℚ) / (24 * 60) * 100⟩)

/-- Python `datetime.hour` of a local timestamp. -/
def hourOf (t : Nat) : Nat := t % 86400 / 3600

/-- Python `datetime.minute` of a local timestamp. -/
def minuteOf (t : Nat) : Nat := t % 3600 / 60

/-- `start.hour * 60 + start.minute` (lines 271–272): minute of day, seconds
discarded. -/
def minOfDay (t : Nat) : Nat := hourOf t * 60 + minuteOf t

/-- `strftime("%H:%M")` of a local timestamp. -/
def fmtHM (t : Nat) : String := pad2 (hourOf t) ++ ":" ++ pad2 (minuteOf t)

structure Block where
  user_id : Nat
  top_pct : ℚ
  height_pct : ℚ
  start_str : String
  end_str : String
  is_running : Bool
deriving DecidableEq, Repr

/-- One timetable block (lines 267–282).  `end_str` is the template's `end`
field; an open session substitutes the query instant `now` for the end and
renders the string `"now"`. -/
def mkBlock (now : Nat) (s : Session) : Block :=
  let startT := s.start_at
  let endT := s.end_at.getD now
  let st_min := minOfDay startT
  let et_min := minOfDay endT
  let height : ℤ := max 0 ((et_min : ℤ) - (st_min : ℤ))
  { user_id := s.user_id
    top_pct := (st_min : ℚ) / (24 * 60) * 100
    height_pct := (height : ℚ) / (24 * 60) * 100
    start_str := fmtHM startT
    end_str := match s.end_at with
      | some e => fmtHM e
      | none => "now"
    is_running := s.end_at.isNone }

/-- The block list of `timetable_view`: rows with `start_at::date = day`,
`ORDER BY start_at ASC`, each projected through `mkBlock`. -/
def timetable_blocks (db : DB) (day : Nat) (now : Nat) : List Block :=
  (List.insertionSort (fun a b : Session => a.start_at ≤ b.start_at)
    (db.attendance.filter (fun s => dateOrd s.start_at == day))).map (mkBlock now)

/-- C5 (amended): ticks are exactly every 30 minutes across 0–24h with
`position_percent = m / 1440 * 100`; a block's top comes from the start's
minute of day and its height is clamped to zero when the computed end minute
precedes the start minute; the 09:00–09:30 scenario block has
`top_percent = 37.5`, `height_percent = 30/1440*100` (≈ 2.083, not the
spec's 1.5625), `is_running = false`. -/
theorem timetable_ticks_and_block_geometry :
    (ticks.length = 49 ∧
      (∀ tk ∈ ticks, ∃ k : Nat, k ≤ 48 ∧ tk.label = tickLabel (30 * k) ∧
        tk.pos_pct = (30 * k : ℚ) / 1440 * 100) ∧
      (∀ k : Nat, k ≤ 48 →
        (⟨tickLabel (30 * k), (30 * k : ℚ) / 1440 * 100⟩ : Tick) ∈ ticks)) ∧
    (∀ (now : Nat) (s : Session),
      (mkBlock now s).top_pct = (minOfDay s.start_at : ℚ) / 1440 * 100 ∧
      (minOfDay (s.end_at.getD now) < minOfDay s.start_at →
        (mkBlock now s).height_pct = 0)) ∧
    ((mkBlock 0 ⟨1, 1, 32400, some 34200⟩).top_pct = 37.5 ∧
      (mkBlock 0 ⟨1, 1, 32400, some 34200⟩).height_pct = (30 : ℚ) / 1440 * 100 ∧
      (mkBlock 0 ⟨1, 1, 32400, some 34200⟩).is_running = false) := by
  refine ⟨⟨?_, ?_, ?_⟩, ?_, ?_, ?_, ?_⟩
  · rfl
  · intro tk htk
    rw [ticks, List.mem_map] at htk
    obtain ⟨m, hm, hmk⟩ := htk
    rw [tickMinutes, List.mem_range'] at hm
    obtain ⟨i, hi, hmi⟩ := hm
    refine ⟨i, by omega, ?_, ?_⟩
    · rw [← hmk]
      have : m = 30 * i := by omega
      rw [this]
    · rw [← hmk]
      have : m = 30 * i := by omega
      rw [this]
      push_cast
      norm_num
  · intro k hk
    rw [ticks, List.mem_map]
    refine ⟨30 * k, ?_, ?_⟩
    · rw [tickMinutes, List.mem_range']
      exact ⟨k, by omega, by omega⟩
    · have : ((30 * k : Nat) : ℚ) / (24 * 60) * 100 = (30 * k : ℚ) / 1440 * 100 := by
        push_cast
        norm_num
      rw [this]
  · intro now s
    constructor
    · simp [mkBlock, minOfDay]
      norm_num
    · intro hlt
      have hmax : max 0 ((minOfDay (s.end_at.getD now) : ℤ) - (minOfDay s.start_at : ℤ)) = 0 := by
        omega
      simp [mkBlock, minOfDay] at hmax ⊢
      exact_mod_cast hmax
  · simp [mkBlock, minOfDay, hourOf, minuteOf]
    norm_num
  · simp [mkBlock, minOfDay, hourOf, minuteOf]
    norm_num
  · rfl

/-- Witness for C5: clamping at a concrete session whose end minute (08:00)
precedes its start minute (09:00). -/
theorem timetable_ticks_and_block_geometry_witness :
    (mkBlock 0 ⟨1, 1, 32400, some 28800⟩).height_pct = 0 :=
  (timetable_ticks_and_block_geometry.2.1 0 ⟨1, 1, 32400, some 28800⟩).2 (by decide)

/-- C5 counterexample: the claimed `height_percent = 1.5625` is false — the
09:00–09:30 block's height percentage is 30/1440*100 = 25/12 ≈ 2.083. -/
theorem timetable_block_height_not_1_5625 :
    (mkBlock 0 ⟨1, 1, 32400, some 34200⟩).height_pct ≠ (1.5625 : ℚ) := by
  simp [mkBlock, minOfDay, hourOf, minuteOf]
  norm_num

/-- C6: a block for an open session (`end_at IS NULL`) is flagged running,
renders its end as the string "now", and takes its height from the query
instant's minute of day; a block for a closed session is not running. -/
theorem open_session_block_runs_against_now (now : Nat) (s : Session) :
    (s.end_at = none →
      (mkBlock now s).is_running = true ∧
      (mkBlock now s).end_str = "now" ∧
      (mkBlock now s).height_pct =
        ((max 0 ((minOfDay now : ℤ) - (minOfDay s.start_at : ℤ)) : ℤ) : ℚ) / 1440 * 100) ∧
    (∀ e : Nat, s.end_at = some e → (mkBlock now s).is_running = false) := by
  constructor
  · intro h
    refine ⟨by simp [mkBlock, h], by simp [mkBlock, h], ?_⟩
    simp only [mkBlock, h, Option.getD_none, Option.isNone_none]
    norm_num
  · intro e h
    simp [mkBlock, h]

/-- Witness for C6: user B starts at 10:00 open, queried at 10:15 — running,
end "now", height from the query instant (15 minutes). -/
theorem open_session_block_runs_against_now_witness :
    (mkBlock 36900 ⟨1, 2, 36000, none⟩).is_running = true ∧
    (mkBlock 36900 ⟨1, 2, 36000, none⟩).end_str = "now" ∧
    (mkBlock 36900 ⟨1, 2, 36000, none⟩).height_pct =
      ((max 0 ((minOfDay 36900 : ℤ) - (minOfDay 36000 : ℤ)) : ℤ) : ℚ) / 1440 * 100 :=
  (open_session_block_runs_against_now 36900 ⟨1, 2, 36000, none⟩).1 rfl

/-- C10: a block depends only on the user, the running flag, and the hour and
minute of day of the start and effective end (seconds and calendar dates are
discarded); shifting a timestamp by whole days or truncating its seconds
changes neither its hour nor its minute; and a closed session whose end's
minute of day is not later than its start's gets height zero. -/
theorem block_depends_only_on_time_of_day :
    (∀ (now now2 : Nat) (s s2 : Session),
      s.user_id = s2.user_id →
      s.end_at.isNone = s2.end_at.isNone →
      hourOf s.start_at = hourOf s2.start_at →
      minuteOf s.start_at = minuteOf s2.start_at →
      hourOf (s.end_at.getD now) = hourOf (s2.end_at.getD now2) →
      minuteOf (s.end_at.getD now) = minuteOf (s2.end_at.getD now2) →
      mkBlock now s = mkBlock now2 s2) ∧
    (∀ t k : Nat, hourOf (t + 86400 * k) = hourOf t ∧ minuteOf (t + 86400 * k) = minuteOf t) ∧
    (∀ t : Nat, hourOf (60 * (t / 60)) = hourOf t ∧ minuteOf (60 * (t / 60)) = minuteOf t) ∧
    (∀ (now : Nat) (s : Session) (e : Nat), s.end_at = some e →
      minOfDay e ≤ minOfDay s.start_at → (mkBlock now s).height_pct = 0) := by
  refine ⟨?_, ?_, ?_, ?_⟩
  · intro now now2 s s2 h1 h2 h3 h4 h5 h6
    cases he : s.end_at with
    | none =>
      cases he2 : s2.end_at with
      | none =>
        rw [he] at h5 h6
        rw [he2] at h5 h6
        simp only [Option.getD_none] at h5 h6
        simp [mkBlock, minOfDay, fmtHM, he, he2, h1, h3, h4, h5, h6]
      | some e2 =>
        rw [he, he2] at h2
        simp at h2
    | some e =>
      cases he2 : s2.end_at with
      | none =>
        rw [he, he2] at h2
        simp at h2
      | some e2 =>
        rw [he] at h5 h6
        rw [he2] at h5 h6
        simp only [Option.getD_some] at h5 h6
        simp [mkBlock, minOfDay, fmtHM, he, he2, h1, h3, h4, h5, h6]
  · intro t k
    constructor
    · unfold hourOf
      omega
    · unfold minuteOf
      omega
  · intro t
    constructor
    · unfold hourOf
      omega
    · unfold minuteOf
      omega
  · intro now s e h hle
    have hmax : max 0 ((minOfDay e : ℤ) - (minOfDay s.start_at : ℤ)) = 0 := by
      omega
    simp only [mkBlock, h, Option.getD_some, minOfDay] at hmax ⊢
    rw [hmax]
    norm_num

/-- Witness for C10: a session starting 23:00 on one day and ending 01:00 the
next calendar day draws with height zero (end minute of day 60 is not later
than start minute of day 1380). -/
theorem block_depends_only_on_time_of_day_witness :
    (mkBlock 0 ⟨1, 1, 82800, some 90000⟩).height_pct = 0 :=
  block_depends_only_on_time_of_day.2.2.2 0 ⟨1, 1, 82800, some 90000⟩ 90000 rfl (by decide)

/-! ### Date parameter handling (`timetable_view`, `src/app.py` 236–237) -/

def parseDigit (c : Char) : Option Nat :=
  if c.isDigit then some (c.toNat - 48) else none

/-- Python `date.fromisoformat` on `YYYY-MM-DD`: ten characters, two dashes,
digits elsewhere, and a calendar-valid year/month/day; anything else raises
`ValueError` (modelled as `none`). -/
def fromisoformatChars : List Char → Option Date
  | [c1, c2, c3, c4, c5, c6, c7, c8, c9, c10] =>
    if c5 = '-' ∧ c8 = '-' then
      match parseDigit c1, parseDigit c2, parseDigit c3, parseDigit c4,
          parseDigit c6, parseDigit c7, parseDigit c9, parseDigit c10 with
      | some a, some b, some c, some d, some e, some f, some g, some h =>
        let y := ((a * 10 + b) * 10 + c) * 10 + d
        let mo := e * 10 + f
        let da := g * 10 + h
        if 1 ≤ y ∧ 1 ≤ mo ∧ mo ≤ 12 ∧ 1 ≤ da ∧ da ≤ daysInMonth y mo then
          some ⟨y, mo, da⟩
        else none
      | _, _, _, _, _, _, _, _ => none
    else none
  | _ => none

def fromisoformat (s : String) : Option Date := fromisoformatChars s.data

/-- Python `date.isoformat()`: zero-padded `YYYY-MM-DD` (years ≤ 9999). -/
def isoformat (d : Date) : String :=
  String.mk [digitChar (d.year / 1000 % 10), digitChar (d.year / 100 % 10),
    digitChar (d.year / 10 % 10), digitChar (d.year % 10), '-',
    digitChar (d.month / 10 % 10), digitChar (d.month % 10), '-',
    digitChar (d.day / 10 % 10), digitChar (d.day % 10)]

/-- Day resolution of `timetable_view` (`src/app.py` 236–237):
`day_str = request.args.get("day") or date.today().isoformat()` followed by
`d = date.fromisoformat(day_str)`.  A missing or empty (falsy) parameter is
replaced by today's ISO string; an unparseable `day_str` raises `ValueError`,
modelled as `Except.error ()` (the request fails). -/
def resolve_day (arg : Option String) (today : Date) : Except Unit Date :=
  let day_str := match arg with
    | none => isoformat today
    | some s => if s = "" then isoformat today else s
  match fromisoformat day_str with
  | some d => Except.ok d
  | none => Except.error ()

theorem parseDigit_digitChar {k : Nat} (h : k < 10) : parseDigit (digitChar k) = some k := by
  interval_cases k <;> rfl

theorem daysInMonth_le_31 (y m : Nat) : daysInMonth y m ≤ 31 := by
  unfold daysInMonth
  split
  · split <;> omega
  · split <;> omega

theorem fromisoformat_isoformat : ∀ d : Date, d.valid → fromisoformat (isoformat d) = some d := by
  rintro ⟨y, mo, da⟩ ⟨h1, h2, h3, h4, h5, h6⟩
  simp only at h1 h2 h3 h4 h5 h6
  have hle31 : daysInMonth y mo ≤ 31 := daysInMonth_le_31 y mo
  have p1 := parseDigit_digitChar (k := y / 1000 % 10) (Nat.mod_lt _ (by norm_num))
  have p2 := parseDigit_digitChar (k := y / 100 % 10) (Nat.mod_lt _ (by norm_num))
  have p3 := parseDigit_digitChar (k := y / 10 % 10) (Nat.mod_lt _ (by norm_num))
  have p4 := parseDigit_digitChar (k := y % 10) (Nat.mod_lt _ (by norm_num))
  have p5 := parseDigit_digitChar (k := mo / 10 % 10) (Nat.mod_lt _ (by norm_num))
  have p6 := parseDigit_digitChar (k := mo % 10) (Nat.mod_lt _ (by norm_num))
  have p7 := parseDigit_digitChar (k := da / 10 % 10) (Nat.mod_lt _ (by norm_num))
  have p8 := parseDigit_digitChar (k := da % 10) (Nat.mod_lt _ (by norm_num))
  have hy : ((y / 1000 % 10 * 10 + y / 100 % 10) * 10 + y / 10 % 10) * 10 + y % 10 = y := by
    omega
  have hm : mo / 10 % 10 * 10 + mo % 10 = mo := by omega
  have hd : da / 10 % 10 * 10 + da % 10 = da := by omega
  simp only [fromisoformat, isoformat, fromisoformatChars, p1, p2, p3, p4, p5, p6, p7, p8,
    hy, hm, hd, eq_self_iff_true, and_self, if_true]
  simp [h1, h3, h4, h5, h6]

/-- C7 counterexample: a malformed date parameter is not recovered — the view
raises instead of falling back to today, so the request fails. -/
theorem resolve_day_malformed_fails :
    resolve_day (some "garbage") ⟨2026, 10, 12⟩ = Except.error () := by rfl

/-- C7 (amended): a missing or empty `day` parameter falls back to today's
date; a malformed (unparseable) `day` parameter is not recovered locally and
fails the request. -/
theorem resolve_day_fallback_and_error (today : Date) (h : today.valid) :
    resolve_day none today = Except.ok today ∧
    resolve_day (some "") today = Except.ok today ∧
    (∀ s : String, s ≠ "" → fromisoformat s = none →
      resolve_day (some s) today = Except.error ()) := by
  refine ⟨?_, ?_, ?_⟩
  · simp only [resolve_day]
    rw [fromisoformat_isoformat today h]
  · simp only [resolve_day, if_true]
    rw [fromisoformat_isoformat today h]
  · intro s hs hparse
    simp only [resolve_day]
    rw [if_neg hs, hparse]

/-- Witness for C7 (amended): with no `day` parameter the view lands on
today. -/
theorem resolve_day_fallback_and_error_witness :
    resolve_day none ⟨2026, 10, 12⟩ = Except.ok ⟨2026, 10, 12⟩ :=
  (resolve_day_fallback_and_error ⟨2026, 10, 12⟩ (by decide)).1

/-! ### Time-zone consistency (`src/app.py` lines 36, 172, 236, 259, 265) -/

/-- Local calendar day of an instant (minutes since the UTC epoch) under a
fixed-offset zone (minutes east of UTC). -/
def localDate (offsetMin : Nat) (tUTC : Nat) : Nat := (tUTC + offsetMin) / 1440

/-- `TZ = ZoneInfo("Asia/Tokyo")` (line 36): UTC+9, no daylight saving. -/
def TZ_offset : Nat := 540

/-- `index` line 172: `today = datetime.now(TZ).date()` — the application
zone `TZ`. -/
def index_today (nowUTC : Nat) : Nat := localDate TZ_offset nowUTC

/-- `timetable_view` line 236: `date.today()` — the server's system time
zone, whatever it happens to be, not `TZ`. -/
def timetable_default_day (sysOffset nowUTC : Nat) : Nat := localDate sysOffset nowUTC

/-- `a.start_at::date` (lines 186, 259): a `timestamptz` cast to `date` under
the database session's `TimeZone` setting, not `TZ`. -/
def sql_date_cast (dbOffset t : Nat) : Nat := localDate dbOffset t

/-- C8 (code bug): local-day decisions do not share one time zone — on a
UTC-configured server and database session, at 20:00 UTC (05:00 next day in
Asia/Tokyo) the timetable's default day and the SQL `::date` bucketing both
disagree with the Asia/Tokyo "today" used by `index` and by `now`. -/
theorem local_day_zone_mismatch :
    timetable_default_day 0 1200 = 0 ∧ sql_date_cast 0 1200 = 0 ∧ index_today 1200 = 1 ∧
    timetable_default_day 0 1200 ≠ index_today 1200 ∧
    sql_date_cast 0 1200 ≠ index_today 1200 := by decide
